import Mathlib

/-!
Verification of the Chapito session-reconciliation and adapter layer.

The definitions below are shallow embeddings of the Python sources:
`chapito/proxy.py` (message model, reconciler, chat_completions ledger
handling), `chapito/deepseek_chat.py`, `chapito/qwen_chat.py`,
`chapito/duckduckgo_chat.py`, `chapito/openai_chat.py` (send_message,
get_last_response, clean_chat_answer) and `chapito/tools/tools.py`
(click_element).  Python strings are modelled as Lean `String` / `List Char`,
Python exceptions as `Except Unit`, HTML documents (the output of
BeautifulSoup parsing, an external collaborator) as a small tree type.
-/

/-! ## Python string primitives -/

/-- Python whitespace characters, as used by `str.strip()` (ASCII range). -/
def isPyWS (c : Char) : Bool :=
  c = ' ' || c = '\t' || c = '\n' || c = '\r' || c = Char.ofNat 11 || c = Char.ofNat 12

/-- Remove leading Python whitespace (left half of `str.strip()`). -/
def stripLeft : List Char → List Char
  | [] => []
  | c :: rest => if isPyWS c then stripLeft rest else c :: rest

/-- Remove trailing Python whitespace (right half of `str.strip()`). -/
def stripRight : List Char → List Char
  | [] => []
  | c :: rest =>
    match stripRight rest with
    | [] => if isPyWS c then [] else [c]
    | r => c :: r

/-- Python `str.strip()` on character lists. -/
def pyStripChars (l : List Char) : List Char := stripRight (stripLeft l)

/-- Python `str.strip()`. -/
def pyStrip (s : String) : String := String.mk (pyStripChars s.data)

/-- One left-to-right pass of Python `s.replace("\n\n", "\n")`. -/
def replaceNN : List Char → List Char
  | [] => []
  | [c] => [c]
  | c1 :: c2 :: rest =>
    if c1 = '\n' && c2 = '\n' then '\n' :: replaceNN rest
    else c1 :: replaceNN (c2 :: rest)

/-- Python `"\n\n" in s`. -/
def hasNN : List Char → Bool
  | [] => false
  | [_] => false
  | c1 :: c2 :: rest => (c1 = '\n' && c2 = '\n') || hasNN (c2 :: rest)

/-- The `while "\n\n" in clean_answer: clean_answer = clean_answer.replace("\n\n", "\n")`
loop of `qwen_chat.clean_chat_answer`, with explicit fuel. -/
def collapseAux : Nat → List Char → List Char
  | 0, l => l
  | n + 1, l => if hasNN l then collapseAux n (replaceNN l) else l

/-- The blank-line collapsing loop; `l.length` steps always reach the fixpoint. -/
def collapseChars (l : List Char) : List Char := collapseAux l.length l

/-- One left-to-right pass of Python `s.replace("\r\n", "\n")`
(`duckduckgo_chat.clean_chat_answer`). -/
def replaceCRLF : List Char → List Char
  | [] => []
  | [c] => [c]
  | c1 :: c2 :: rest =>
    if c1 = '\r' && c2 = '\n' then '\n' :: replaceCRLF rest
    else c1 :: replaceCRLF (c2 :: rest)

/-! ## Proxy message model and reconciler (`chapito/proxy.py`) -/

/-- Model of `proxy.Message` after content validation: role and plain-text content. -/
structure Message where
  role : String
  content : String
deriving Repr, DecidableEq

instance : Inhabited Message := ⟨⟨"", ""⟩⟩

/-- The inner loop of `proxy.find_index_from_end`: scan indices `n-1, n-2, ..., 0`. -/
def findIdxAux (lst : List Message) (values : List String) : Nat → Int
  | 0 => -1
  | n + 1 =>
    match lst[n]? with
    | some m => if pyStrip m.content ∈ values then (n : Int) else findIdxAux lst values n
    | none => findIdxAux lst values n

/-- The function `proxy.find_index_from_end`: index of the last message whose stripped
content appears in `values`, `-1` when none does. -/
def find_index_from_end (lst : List Message) (values : List String) : Int :=
  findIdxAux lst values lst.length

/-- The `f"[{message.role}] {message.content}"` rendering in `chat_completions`. -/
def renderMessage (m : Message) : String := "[" ++ m.role ++ "] " ++ m.content

/-- The delta prompt computed in `chat_completions`:
`"\n\n".join(... for message in request.messages[index_of_last_message + 1:])`. -/
def computeDelta (messages : List Message) (ledger : List String) : String :=
  String.intercalate "\n\n"
    ((messages.drop ((find_index_from_end messages ledger) + 1).toNat).map renderMessage)

/-- The whole-history prompt `"\n\n".join(... for message in request.messages)`. -/
def fullJoin (messages : List Message) : String :=
  String.intercalate "\n\n" (messages.map renderMessage)

/-- Result of one `chat_completions` call, restricted to the reconciler state:
the submitted prompt, the ledger at the moment the browser interaction starts
(after the user turn is appended), and the ledger after the response handling. -/
structure StepResult where
  prompt : String
  ledgerSent : List String
  ledgerFinal : List String
deriving Repr, DecidableEq

/-- The message-processing slice of `proxy.chat_completions` (lines 241-254):
compute the delta, append the stripped last message to `last_chat_messages`,
fall back to the full history when the delta is empty, and append the
response when it is non-empty. `response` is the value returned by
`send_request_and_get_response` (the browser interaction, an external call). -/
def chat_completions_step (ledger : List String) (messages : List Message)
    (response : String) : StepResult :=
  let delta := computeDelta messages ledger
  let ledger1 := ledger ++ [pyStrip (messages.getLast!).content]
  let prompt := if delta = "" then fullJoin messages else delta
  let ledger2 := if response = "" then ledger1 else ledger1 ++ [response]
  ⟨prompt, ledger1, ledger2⟩

/-- Threading the global `last_chat_messages` ledger through a sequence of
`chat_completions` calls, each given as (request messages, browser response). -/
def runCalls (ledger : List String) (calls : List (List Message × String)) : List String :=
  calls.foldl (fun led c => (chat_completions_step led c.1 c.2).ledgerFinal) ledger

/-! ## HTML documents and the markup cleaners

An HTML document (the result of BeautifulSoup parsing, an external
collaborator) is a forest of sibling nodes in document order; a node is a
text fragment or a tag with attributes, children and following siblings.
`find_all` traverses in document order. -/

inductive Html where
  | nil
  | text (s : String) (next : Html)
  | tag (name : String) (attrs : List (String × String)) (children : Html) (next : Html)

/-- Concatenation of two sibling forests. -/
def appendH : Html → Html → Html
  | Html.nil, f => f
  | Html.text s n, f => Html.text s (appendH n f)
  | Html.tag nm a c n, f => Html.tag nm a c (appendH n f)

/-- Python `s.split(" ")` (single-space separator, `html` class tokens). -/
def splitSp : List Char → List (List Char)
  | [] => [[]]
  | c :: rest =>
    if c = ' ' then [] :: splitSp rest
    else
      match splitSp rest with
      | [] => [[c]]
      | w :: ws => (c :: w) :: ws

/-- The class tokens of a tag, as matched by BeautifulSoup `class_=...`. -/
def classTokens (attrs : List (String × String)) : List String :=
  match attrs.lookup "class" with
  | some s => (splitSp s.data).map String.mk
  | none => []

/-- BeautifulSoup `find_all(tag, class_=c)` membership test for one node. -/
def hasClass (attrs : List (String × String)) (c : String) : Bool :=
  classTokens attrs |>.contains c

/-- Whether `sub` is an initial segment of `l`. -/
def startsWithChars : List Char → List Char → Bool
  | [], _ => true
  | _ :: _, [] => false
  | a :: as, b :: bs => a = b && startsWithChars as bs

/-- Python `sub in s` on character lists. -/
def hasSubstr (sub : List Char) : List Char → Bool
  | [] => decide (sub = [])
  | c :: rest => startsWithChars sub (c :: rest) || hasSubstr sub rest

/-- Python `sub in s` substring test. -/
def containsSub (s sub : String) : Bool := hasSubstr sub.data s.data

/-- All text fragments of a forest in document order;
`get_text(separator=sep)` is these joined with `sep`. -/
def textsList : Html → List String
  | Html.nil => []
  | Html.text s next => s :: textsList next
  | Html.tag _ _ c next => textsList c ++ textsList next

/-- The query `div.find_all("pre")`: the `pre` descendants of a forest as a new sibling
forest, document order. -/
def findPres : Html → Html
  | Html.nil => Html.nil
  | Html.text _ next => findPres next
  | Html.tag nm a c next =>
    if nm = "pre" then Html.tag nm a c (appendH (findPres c) (findPres next))
    else appendH (findPres c) (findPres next)

/-- First pass of `deepseek_chat.clean_chat_answer`: each `div.md-code-block`
is cleared and its `pre` descendants re-appended. -/
def dsCodeBlockPass : Html → Html
  | Html.nil => Html.nil
  | Html.text s next => Html.text s (dsCodeBlockPass next)
  | Html.tag nm a c next =>
    if nm = "div" && hasClass a "md-code-block"
    then Html.tag nm a (findPres c) (dsCodeBlockPass next)
    else Html.tag nm a (dsCodeBlockPass c) (dsCodeBlockPass next)

/-- Second pass of `deepseek_chat.clean_chat_answer`: every `pre` gets a literal
text node `"\n```\n"` inserted before and after it. -/
def fencePass : Html → Html
  | Html.nil => Html.nil
  | Html.text s next => Html.text s (fencePass next)
  | Html.tag nm a c next =>
    if nm = "pre"
    then Html.text "\n```\n" (Html.tag nm a (fencePass c) (Html.text "\n```\n" (fencePass next)))
    else Html.tag nm a (fencePass c) (fencePass next)

/-- The function `deepseek_chat.clean_chat_answer` (lines 104-124): code-block collapsing,
fencing of every `pre`, then `soup.get_text().strip()`. -/
def deepseek_clean_chat_answer (doc : Html) : String :=
  pyStrip (String.join (textsList (fencePass (dsCodeBlockPass doc))))

/-- First pass of `qwen_chat.clean_chat_answer`: every `div` whose `style`
attribute contains `"display: none;"` is cleared. -/
def qwHiddenPass : Html → Html
  | Html.nil => Html.nil
  | Html.text s next => Html.text s (qwHiddenPass next)
  | Html.tag nm a c next =>
    if nm = "div" && (match a.lookup "style" with
                      | some st => containsSub st "display: none;"
                      | none => false)
    then Html.tag nm a Html.nil (qwHiddenPass next)
    else Html.tag nm a (qwHiddenPass c) (qwHiddenPass next)

/-- The `div.find_all("div", class_="cm-content")` descendants as a sibling
forest, document order. -/
def findCm : Html → Html
  | Html.nil => Html.nil
  | Html.text _ next => findCm next
  | Html.tag nm a c next =>
    if nm = "div" && hasClass a "cm-content"
    then Html.tag nm a c (appendH (findCm c) (findCm next))
    else appendH (findCm c) (findCm next)

/-- Re-appending the found code divs, each between `"\n```\n"` text nodes. -/
def fenceEach : Html → Html
  | Html.nil => Html.nil
  | Html.text s next => Html.text s (fenceEach next)
  | Html.tag nm a c next =>
    Html.text "\n```\n" (Html.tag nm a c (Html.text "\n```\n" (fenceEach next)))

/-- Second pass of `qwen_chat.clean_chat_answer`: each `div.code-cntainer` is
cleared and each `div.cm-content` descendant re-appended between literal
`"\n```\n"` text nodes. -/
def qwCodePass : Html → Html
  | Html.nil => Html.nil
  | Html.text s next => Html.text s (qwCodePass next)
  | Html.tag nm a c next =>
    if nm = "div" && hasClass a "code-cntainer"
    then Html.tag nm a (fenceEach (findCm c)) (qwCodePass next)
    else Html.tag nm a (qwCodePass c) (qwCodePass next)

/-- The final string stage of `qwen_chat.clean_chat_answer`:
`.strip()` then the blank-line collapsing loop. -/
def qwenPost (l : List Char) : List Char := collapseChars (pyStripChars l)

/-- The function `qwen_chat.clean_chat_answer` (lines 105-127): hidden-div clearing,
code-container rewriting, `get_text(separator="\n").strip()`, then the
`"\n\n"`-collapsing loop. -/
def qwen_clean_chat_answer (doc : Html) : String :=
  String.mk (qwenPost (String.intercalate "\n" (textsList (qwCodePass (qwHiddenPass doc)))).data)

/-- The function `duckduckgo_chat.clean_chat_answer`: `text.replace("\r\n", "\n").strip()`. -/
def duckduckgo_clean_chat_answer (s : String) : String :=
  pyStrip (String.mk (replaceCRLF s.data))

/-- A cleaner applied to a plain-text input (no HTML markup): BeautifulSoup
parses such an input as a single text node. -/
def deepseek_clean_text (s : String) : String :=
  deepseek_clean_chat_answer (Html.text s Html.nil)

/-- The function `qwen_chat.clean_chat_answer` applied to a plain-text input. -/
def qwen_clean_text (s : String) : String :=
  qwen_clean_chat_answer (Html.text s Html.nil)

/-! ## Adapter send operations

The browser driver is an external collaborator; a page is modelled by the
outcomes its primitives produce.  Python exceptions are `Except Unit`. -/

/-- An element handle returned by the driver. -/
structure Element where
  eid : Nat
deriving Repr, DecidableEq

/-- The helper `tools.click_element`: clicks and swallows any exception, returning
whether the click succeeded. -/
def click_element (outcome : Except Unit Unit) : Bool :=
  match outcome with
  | .ok _ => true
  | .error _ => false

/-- The driver outcomes a `send_message` call can observe on a page
(`duckduckgo_chat` / `deepseek_chat` / `qwen_chat` shape):
`page.find(TAG_NAME, "textarea")` may raise or yield no element;
`textarea.click()` and `textarea.insert_text` may raise;
`page.find(..., find_all=True)` may raise; clicking the chosen submit
control has an outcome that `click_element` observes. -/
structure SendPage where
  findTextarea : Except Unit (Option Element)
  clickTextarea : Except Unit Unit
  insertText : Except Unit Unit
  findSubmits : Except Unit (List Element)
  submitClickOutcome : Element → Except Unit Unit

/-- The body of `send_message` (`duckduckgo_chat.py` lines 39-64, identical in
`deepseek_chat.py` and `qwen_chat.py`): any exception escapes to the caller
(`Except.error` propagates).  Returns (returned bool, submit control passed
to `click_element`). -/
def send_message_run (p : SendPage) : Except Unit (Bool × Option Element) :=
  match p.findTextarea with
  | .error e => .error e
  | .ok none => .ok (false, none)
  | .ok (some _) =>
    match p.clickTextarea with
    | .error e => .error e
    | .ok _ =>
      match p.insertText with
      | .error e => .error e
      | .ok _ =>
        match p.findSubmits with
        | .error e => .error e
        | .ok subs =>
          match subs.getLast? with
          | none => .ok (false, none)
          | some b =>
            let _ := click_element (p.submitClickOutcome b)
            .ok (true, some b)

/-- The function `send_message` with its enclosing `try ... except: return False`. -/
def send_message (p : SendPage) : Bool × Option Element :=
  match send_message_run p with
  | .ok r => r
  | .error _ => (false, none)

/-- Modelled from the spec: the driver's single-element lookup
(`find_or_wait_element`, used by `wait_for_element_clickable`) yields the
first element matching the selector in document order, while `find_all`
yields all matches in document order. -/
def firstMatch (submits : List Element) : Option Element := submits.head?

/-- The function `openai_chat.send_message` (lines 41-65): single-element waits for the
textarea and the send button; `submits` is the document-order list of
elements matching `SUBMIT_CSS_SELECTOR`.  Returns (returned bool, submit
control passed to `click_element`). -/
def openai_send_message (textareaVisible : Option Element)
    (transferOutcome : Except Unit Unit) (submits : List Element)
    (submitClickOutcome : Element → Except Unit Unit) : Bool × Option Element :=
  match textareaVisible with
  | none => (false, none)
  | some _ =>
    match transferOutcome with
    | .error _ => (false, none)
    | .ok _ =>
      match firstMatch submits with
      | none => (false, none)
      | some b =>
        let _ := click_element (submitClickOutcome b)
        (true, some b)

/-! ## DuckDuckGo clipboard retry (`duckduckgo_chat.get_last_response`) -/

/-- The `while not message and remaining_attempts > 0` loop: `reads k` is the
string produced by the k-th `get_answer_from_copy_button` call (that helper
catches its own exceptions and returns `""` on any failure).  Returns the
loop's final `message` and the number of attempts performed. -/
def copy_retry_loop (reads : Nat → String) : Nat → Nat → String × Nat
  | 0, k => ("", k)
  | r + 1, k =>
    let m := reads k
    if m = "" then copy_retry_loop reads r (k + 1) else (m, k + 1)

/-- The function `duckduckgo_chat.get_last_response` (lines 128-151), scrolling elided:
retry the copy-button read up to 5 times, return `""` when every attempt was
empty, otherwise the cleaned message.  Second component: attempts performed. -/
def get_last_response_duck (reads : Nat → String) : String × Nat :=
  let mn := copy_retry_loop reads 5 0
  if mn.1 = "" then ("", mn.2) else (duckduckgo_clean_chat_answer mn.1, mn.2)

/-! ## Message content flattening (`proxy.Message.transform_content`) -/

/-- A raw OpenAI message content: a plain string or a list of parts, each part
a JSON object modelled as a string-valued association list. -/
inductive RawContent where
  | str (s : String)
  | parts (items : List (List (String × String)))

/-- The comprehension `[item["text"] for item in value if item.get("type") == "text"]`:
the text of each text-typed part in order; `item["text"]` raises `KeyError`
when the key is missing. -/
def collectTexts : List (List (String × String)) → Except Unit (List String)
  | [] => .ok []
  | it :: rest =>
    if it.lookup "type" = some "text" then
      match it.lookup "text" with
      | some t => (collectTexts rest).map (fun ts => t :: ts)
      | none => .error ()
    else collectTexts rest

/-- The validator `proxy.Message.transform_content` (lines 33-38): a list is flattened to
`"\n\n".join(item["text"] for item in value if item.get("type") == "text")`;
a string passes through. -/
def transform_content : RawContent → Except Unit String
  | .str s => .ok s
  | .parts items => (collectTexts items).map (String.intercalate "\n\n")

/-- The text fragments of the text-typed parts, in order (specification-side
rendering of "extracting only the parts whose type is text, preserving their
order"). -/
def textPartsSpec : List (List (String × String)) → List String
  | [] => []
  | it :: rest =>
    if it.lookup "type" = some "text"
    then ((it.lookup "text").getD "") :: textPartsSpec rest
    else textPartsSpec rest

/-! ## Concrete instances used in the theorems below -/

/-- The code-fence round-trip input
`<div class="code-block"><pre><code>print(1)</code></pre></div>`. -/
def codeFenceDoc : Html :=
  Html.tag "div" [("class", "code-block")]
    (Html.tag "pre" [] (Html.tag "code" [] (Html.text "print(1)" Html.nil) Html.nil) Html.nil)
    Html.nil

/-- The function `deepseek_chat.chat_with_deepseek` (lines 127-145): send or wait failures
are reported as sentinel strings, successes return the extracted answer. -/
def chat_with_deepseek (sendOk : Bool) (responseAppeared : Bool)
    (extracted : String) : String :=
  if !sendOk then "Error: Failed to send message"
  else if !responseAppeared then "Error: Response timeout"
  else extracted

/-- A page whose submit-control click raises inside `click_element`. -/
def clickFailPage : SendPage :=
  ⟨Except.ok (some ⟨0⟩), Except.ok (), Except.ok (), Except.ok [⟨1⟩],
    fun _ => Except.error ()⟩

/-- A page with no textarea. -/
def missingTextareaPage : SendPage :=
  ⟨Except.ok none, Except.ok (), Except.ok (), Except.ok [], fun _ => Except.ok ()⟩

/-- A page with two elements matching the submit selector. -/
def twoSubmitPage : SendPage :=
  ⟨Except.ok (some ⟨0⟩), Except.ok (), Except.ok (), Except.ok [⟨1⟩, ⟨2⟩],
    fun _ => Except.ok ()⟩

/-- A clipboard that always reads back `"hi "` (trailing space). -/
def padReads : Nat → String := fun _ => "hi "

/-- A clipboard that always reads back `"hello"`. -/
def helloReads : Nat → String := fun _ => "hello"

/-- A structured content list with two text parts around an image part. -/
def partsExample : List (List (String × String)) :=
  [[("type", "text"), ("text", "a")],
   [("type", "image_url"), ("image_url", "u")],
   [("type", "text"), ("text", "b")]]

/-! ## Lemmas about the string primitives -/

theorem getLast?_cons_of_ne_nil {α : Type} (a : α) {m : List α} (h : m ≠ []) :
    (a :: m).getLast? = m.getLast? := by
  cases m with
  | nil => exact absurd rfl h
  | cons b t => exact List.getLast?_cons_cons

theorem twoStepInduction {motive : List Char → Prop} (h0 : motive [])
    (h1 : ∀ c, motive [c])
    (h2 : ∀ c1 c2 rest, motive rest → motive (c2 :: rest) → motive (c1 :: c2 :: rest)) :
    ∀ l, motive l
  | [] => h0
  | [c] => h1 c
  | c1 :: c2 :: rest =>
    h2 c1 c2 rest (twoStepInduction h0 h1 h2 rest) (twoStepInduction h0 h1 h2 (c2 :: rest))

theorem replaceNN_length_le (l : List Char) : (replaceNN l).length ≤ l.length := by
  induction l using twoStepInduction with
  | h0 => simp [replaceNN]
  | h1 c => simp [replaceNN]
  | h2 c1 c2 rest ih1 ih2 =>
    simp only [replaceNN]
    split
    · simp only [List.length_cons]; omega
    · simp only [List.length_cons] at *; omega

theorem replaceNN_length_lt (l : List Char) (h : hasNN l = true) :
    (replaceNN l).length < l.length := by
  induction l using twoStepInduction with
  | h0 => simp [hasNN] at h
  | h1 c => simp [hasNN] at h
  | h2 c1 c2 rest ih1 ih2 =>
    simp only [replaceNN]
    split
    · have := replaceNN_length_le rest
      simp only [List.length_cons]; omega
    · rename_i hc
      simp only [hasNN, Bool.or_eq_true] at h
      rcases h with h | h
      · exact absurd h hc
      · have := ih2 h
        simp only [List.length_cons] at *; omega

theorem hasNN_collapseAux : ∀ fuel (l : List Char), l.length ≤ fuel →
    hasNN (collapseAux fuel l) = false := by
  intro fuel
  induction fuel with
  | zero =>
    intro l h
    have hl : l = [] := List.length_eq_zero.mp (Nat.le_zero.mp h)
    subst hl
    simp [collapseAux, hasNN]
  | succ n ih =>
    intro l h
    simp only [collapseAux]
    split
    · rename_i hN
      exact ih _ (by have := replaceNN_length_lt l hN; omega)
    · rename_i hN
      exact Bool.not_eq_true _ |>.mp hN

theorem hasNN_collapseChars (l : List Char) : hasNN (collapseChars l) = false :=
  hasNN_collapseAux l.length l le_rfl

theorem collapseAux_no_change : ∀ fuel (l : List Char), hasNN l = false →
    collapseAux fuel l = l := by
  intro fuel l h
  cases fuel with
  | zero => rfl
  | succ n => simp [collapseAux, h]

theorem collapseChars_no_change (l : List Char) (h : hasNN l = false) :
    collapseChars l = l :=
  collapseAux_no_change l.length l h

theorem head?_replaceNN (l : List Char) : (replaceNN l).head? = l.head? := by
  induction l using twoStepInduction with
  | h0 => rfl
  | h1 c => rfl
  | h2 c1 c2 rest ih1 ih2 =>
    simp only [replaceNN]
    split
    · rename_i hc
      simp only [Bool.and_eq_true, decide_eq_true_eq] at hc
      simp [hc.1]
    · simp

theorem replaceNN_ne_nil (l : List Char) (h : l ≠ []) : replaceNN l ≠ [] := by
  induction l using twoStepInduction with
  | h0 => exact absurd rfl h
  | h1 c => simp [replaceNN]
  | h2 c1 c2 rest ih1 ih2 =>
    simp only [replaceNN]
    split <;> simp

theorem getLast?_replaceNN (l : List Char) : (replaceNN l).getLast? = l.getLast? := by
  induction l using twoStepInduction with
  | h0 => rfl
  | h1 c => rfl
  | h2 c1 c2 rest ih1 ih2 =>
    simp only [replaceNN]
    split
    · rename_i hc
      simp only [Bool.and_eq_true, decide_eq_true_eq] at hc
      cases hr : rest with
      | nil =>
        subst hr
        simp [replaceNN, hc.2]
      | cons b t =>
        rw [← hr]
        have hne : replaceNN rest ≠ [] := replaceNN_ne_nil rest (by simp [hr])
        rw [getLast?_cons_of_ne_nil _ hne, ih1,
          getLast?_cons_of_ne_nil _ (by simp : c2 :: rest ≠ []),
          getLast?_cons_of_ne_nil _ (by simp [hr] : rest ≠ [])]
    · have hne : replaceNN (c2 :: rest) ≠ [] := replaceNN_ne_nil (c2 :: rest) (by simp)
      rw [getLast?_cons_of_ne_nil _ hne, ih2,
        getLast?_cons_of_ne_nil _ (by simp : c2 :: rest ≠ [])]

theorem head?_collapseAux : ∀ fuel (l : List Char), (collapseAux fuel l).head? = l.head? := by
  intro fuel
  induction fuel with
  | zero => intro l; rfl
  | succ n ih =>
    intro l
    simp only [collapseAux]
    split
    · rw [ih, head?_replaceNN]
    · rfl

theorem getLast?_collapseAux : ∀ fuel (l : List Char),
    (collapseAux fuel l).getLast? = l.getLast? := by
  intro fuel
  induction fuel with
  | zero => intro l; rfl
  | succ n ih =>
    intro l
    simp only [collapseAux]
    split
    · rw [ih, getLast?_replaceNN]
    · rfl

theorem head?_stripLeft_not_ws (l : List Char) (c : Char)
    (h : (stripLeft l).head? = some c) : isPyWS c = false := by
  induction l with
  | nil => simp [stripLeft] at h
  | cons a rest ih =>
    rw [stripLeft] at h
    split at h
    · exact ih h
    · rename_i ha
      simp only [List.head?_cons, Option.some.injEq] at h
      subst h
      exact Bool.not_eq_true _ |>.mp ha

theorem head?_stripRight (l : List Char) (c : Char)
    (h : (stripRight l).head? = some c) : l.head? = some c := by
  induction l with
  | nil => simp [stripRight] at h
  | cons a rest ih =>
    rw [stripRight] at h
    cases hsr : stripRight rest with
    | nil =>
      rw [hsr] at h
      simp only [] at h
      split at h
      · simp at h
      · simp only [List.head?_cons, Option.some.injEq] at h
        subst h
        rfl
    | cons b t =>
      rw [hsr] at h
      simp only [List.head?_cons, Option.some.injEq] at h
      subst h
      rfl

theorem getLast?_stripRight_not_ws (l : List Char) (c : Char)
    (h : (stripRight l).getLast? = some c) : isPyWS c = false := by
  induction l with
  | nil => simp [stripRight] at h
  | cons a rest ih =>
    rw [stripRight] at h
    cases hsr : stripRight rest with
    | nil =>
      rw [hsr] at h
      simp only [] at h
      split at h
      · simp at h
      · rename_i ha
        simp only [List.getLast?_singleton, Option.some.injEq] at h
        subst h
        exact Bool.not_eq_true _ |>.mp ha
    | cons b t =>
      rw [hsr] at h
      rw [getLast?_cons_of_ne_nil _ (by simp : b :: t ≠ [])] at h
      rw [← hsr] at h
      exact ih h

theorem stripLeft_eq_self (l : List Char)
    (h : ∀ c, l.head? = some c → isPyWS c = false) : stripLeft l = l := by
  cases l with
  | nil => rfl
  | cons a rest =>
    rw [stripLeft]
    rw [h a rfl]
    simp

theorem stripRight_eq_self (l : List Char)
    (h : ∀ c, l.getLast? = some c → isPyWS c = false) : stripRight l = l := by
  induction l with
  | nil => rfl
  | cons a rest ih =>
    cases hr : rest with
    | nil =>
      subst hr
      rw [stripRight]
      simp only [stripRight]
      rw [h a (by simp)]
      simp
    | cons b t =>
      rw [← hr]
      have hrest : stripRight rest = rest := by
        apply ih
        intro c hc
        apply h
        rw [getLast?_cons_of_ne_nil _ (by simp [hr] : rest ≠ [])]
        exact hc
      rw [stripRight, hrest, hr]

theorem head?_pyStrip_not_ws (l : List Char) (c : Char)
    (h : (pyStripChars l).head? = some c) : isPyWS c = false :=
  head?_stripLeft_not_ws l c (head?_stripRight (stripLeft l) c h)

theorem getLast?_pyStrip_not_ws (l : List Char) (c : Char)
    (h : (pyStripChars l).getLast? = some c) : isPyWS c = false :=
  getLast?_stripRight_not_ws (stripLeft l) c h

theorem pyStripChars_eq_self (l : List Char)
    (hh : ∀ c, l.head? = some c → isPyWS c = false)
    (hl : ∀ c, l.getLast? = some c → isPyWS c = false) : pyStripChars l = l := by
  unfold pyStripChars
  rw [stripLeft_eq_self l hh, stripRight_eq_self l hl]

theorem pyStripChars_idem (l : List Char) :
    pyStripChars (pyStripChars l) = pyStripChars l :=
  pyStripChars_eq_self (pyStripChars l) (head?_pyStrip_not_ws l) (getLast?_pyStrip_not_ws l)

/-! ## Lemmas about the qwen string pipeline -/

theorem hasNN_qwenPost (l : List Char) : hasNN (qwenPost l) = false :=
  hasNN_collapseChars (pyStripChars l)

theorem pyStripChars_qwenPost (l : List Char) :
    pyStripChars (qwenPost l) = qwenPost l := by
  apply pyStripChars_eq_self
  · intro c hc
    apply head?_pyStrip_not_ws l c
    rw [← head?_collapseAux (pyStripChars l).length (pyStripChars l)]
    exact hc
  · intro c hc
    apply getLast?_pyStrip_not_ws l c
    rw [← getLast?_collapseAux (pyStripChars l).length (pyStripChars l)]
    exact hc

theorem qwenPost_idem (l : List Char) : qwenPost (qwenPost l) = qwenPost l := by
  show collapseChars (pyStripChars (qwenPost l)) = qwenPost l
  rw [pyStripChars_qwenPost, collapseChars_no_change _ (hasNN_qwenPost l)]

/-! ## C10: qwen cleaner output has no blank lines and no surrounding whitespace -/

/-- C10: for every HTML input, the text returned by the Qwen adapter's
`clean_chat_answer` contains no two consecutive newline characters
(`hasNN` is the `"\n\n" in s` test) and no leading or trailing whitespace
(it is a fixpoint of Python `str.strip()`), blank lines inside code blocks
included. -/
theorem qwen_clean_no_blank_lines_and_stripped (doc : Html) :
    hasNN (qwen_clean_chat_answer doc).data = false ∧
    pyStripChars (qwen_clean_chat_answer doc).data = (qwen_clean_chat_answer doc).data :=
  ⟨hasNN_qwenPost _, pyStripChars_qwenPost _⟩

/-! ## C5: the markup cleaners are idempotent on plain text -/

/-- C5: for every string that is already plain text (no HTML markup, hence
parsed as a single text node), both the DeepSeek and the Qwen
`clean_chat_answer` are idempotent. -/
theorem clean_markup_idempotent_on_plain_text (s : String) :
    deepseek_clean_text (deepseek_clean_text s) = deepseek_clean_text s ∧
    qwen_clean_text (qwen_clean_text s) = qwen_clean_text s := by
  have hds : ∀ t : String, deepseek_clean_text t = String.mk (pyStripChars t.data) := by
    intro t
    show pyStrip (String.join (textsList (fencePass (dsCodeBlockPass
      (Html.text t Html.nil))))) = _
    have h1 : dsCodeBlockPass (Html.text t Html.nil) = Html.text t Html.nil := rfl
    have h2 : fencePass (Html.text t Html.nil) = Html.text t Html.nil := rfl
    rw [h1, h2]
    have h3 : textsList (Html.text t Html.nil) = [t] := rfl
    rw [h3]
    have h4 : String.join [t] = t := by simp [String.join]
    rw [h4]
    rfl
  have hqw : ∀ t : String, qwen_clean_text t = String.mk (qwenPost t.data) := by
    intro t
    show String.mk (qwenPost (String.intercalate "\n" (textsList (qwCodePass
      (qwHiddenPass (Html.text t Html.nil))))).data) = _
    have h1 : qwHiddenPass (Html.text t Html.nil) = Html.text t Html.nil := rfl
    have h2 : qwCodePass (Html.text t Html.nil) = Html.text t Html.nil := rfl
    rw [h1, h2]
    rfl
  constructor
  · rw [hds, hds]
    exact congrArg String.mk (pyStripChars_idem s.data)
  · rw [hqw, hqw]
    exact congrArg String.mk (qwenPost_idem s.data)

/-! ## C4: the code-fence round trip -/

/-- C4 counterexample: on the input
`<div class="code-block"><pre><code>print(1)</code></pre></div>`, the Qwen
adapter's `clean_chat_answer` (one of the two cleaners the claim is about)
returns plain `print(1)` with no fenced-code delimiters: its code-block
selectors (`div.code-cntainer` / `div.cm-content`) do not match this input. -/
theorem qwen_code_fence_missing :
    qwen_clean_chat_answer codeFenceDoc = "print(1)" ∧
    qwen_clean_chat_answer codeFenceDoc ≠ "```\nprint(1)\n```" := by decide

/-- C4 (amended): on the input
`<div class="code-block"><pre><code>print(1)</code></pre></div>`, the
DeepSeek adapter's `clean_chat_answer` yields, after trimming, exactly
```` ```\nprint(1)\n``` ````, while the Qwen adapter's `clean_chat_answer`
yields `print(1)` without fences because its selectors do not match. -/
theorem code_fence_round_trip_adapters :
    deepseek_clean_chat_answer codeFenceDoc = "```\nprint(1)\n```" ∧
    qwen_clean_chat_answer codeFenceDoc = "print(1)" := by decide

/-! ## The reconciler scan (`find_index_from_end`) -/

theorem findIdxAux_spec (lst : List Message) (values : List String) :
    ∀ n, n ≤ lst.length →
      (findIdxAux lst values n = -1 ∧
        ∀ j, j < n → ∀ m, lst[j]? = some m → pyStrip m.content ∉ values) ∨
      (∃ i m, i < n ∧ findIdxAux lst values n = (i : Int) ∧ lst[i]? = some m ∧
        pyStrip m.content ∈ values ∧
        ∀ j, i < j → j < n → ∀ m', lst[j]? = some m' → pyStrip m'.content ∉ values) := by
  intro n
  induction n with
  | zero =>
    intro _
    left
    exact ⟨rfl, fun j hj => absurd hj (Nat.not_lt_zero j)⟩
  | succ n ih =>
    intro hn
    have hn' : n ≤ lst.length := by omega
    have hlt : n < lst.length := by omega
    obtain ⟨m, hm⟩ : ∃ m, lst[n]? = some m := ⟨lst[n], List.getElem?_eq_getElem hlt⟩
    by_cases hmem : pyStrip m.content ∈ values
    · right
      refine ⟨n, m, by omega, ?_, hm, hmem, ?_⟩
      · rw [findIdxAux, hm]
        simp only []
        rw [if_pos hmem]
      · intro j hja hjb m' hm'
        omega
    · have heq : findIdxAux lst values (n + 1) = findIdxAux lst values n := by
        rw [findIdxAux, hm]
        simp only []
        rw [if_neg hmem]
      rcases ih hn' with ⟨h1, h2⟩ | ⟨i, m', hi, hfi, hm', hmem', hnone⟩
      · left
        constructor
        · rw [heq]; exact h1
        · intro j hj m' hm''
          rcases Nat.lt_succ_iff_lt_or_eq.mp hj with h | h
          · exact h2 j h m' hm''
          · subst h
            rw [hm] at hm''
            cases hm''
            exact hmem
      · right
        refine ⟨i, m', by omega, by rw [heq]; exact hfi, hm', hmem', ?_⟩
        intro j hja hjb m'' hm''
        rcases Nat.lt_succ_iff_lt_or_eq.mp hjb with h | h
        · exact hnone j hja h m'' hm''
        · subst h
          rw [hm] at hm''
          cases hm''
          exact hmem

/-! ## C1: the reconciler's match selection and delta prompt -/

/-- C1 counterexample: with ledger `["a"]` and the single request message
`[user] a`, the reconciler selects index 0 (the greatest matching index),
but the submitted prompt is the whole history `"[user] a"`, not the join of
the (empty) list of messages strictly after index 0, which is `""`: the
empty-delta fallback overrides the suffix. -/
theorem reconciler_prompt_not_suffix_at_full_match :
    find_index_from_end [Message.mk "user" "a"] ["a"] = 0 ∧
    (chat_completions_step ["a"] [Message.mk "user" "a"] "r").prompt = "[user] a" ∧
    String.intercalate "\n\n"
      ((([Message.mk "user" "a"]).drop
        ((find_index_from_end [Message.mk "user" "a"] ["a"]) + 1).toNat).map renderMessage)
      = "" := by decide

/-- C1 (amended): for every message list, ledger and response, whenever the
computed delta is non-empty (equivalently, the greatest match is not at the
last position), the scan selects the greatest index whose stripped content
lies in the ledger — membership in the whole ledger, not only its most
recent entry — and the submitted prompt is exactly the messages strictly
after that index, rendered `[role] content` and joined by one blank line. -/
theorem reconciler_selects_greatest_match_and_delta (messages : List Message)
    (ledger : List String) (response : String)
    (hne : computeDelta messages ledger ≠ "") :
    (∀ j : Nat, find_index_from_end messages ledger < (j : Int) →
      ∀ m, messages[j]? = some m → pyStrip m.content ∉ ledger) ∧
    (0 ≤ find_index_from_end messages ledger →
      ∃ m, messages[(find_index_from_end messages ledger).toNat]? = some m ∧
        pyStrip m.content ∈ ledger) ∧
    (chat_completions_step ledger messages response).prompt =
      String.intercalate "\n\n"
        ((messages.drop ((find_index_from_end messages ledger) + 1).toNat).map
          renderMessage) := by
  have hprompt : (chat_completions_step ledger messages response).prompt =
      computeDelta messages ledger := by
    simp only [chat_completions_step]
    rw [if_neg hne]
  rcases findIdxAux_spec messages ledger messages.length le_rfl with
    ⟨h1, h2⟩ | ⟨i, m, hi, hfi, hm, hmem, hnone⟩
  · refine ⟨?_, ?_, hprompt⟩
    · intro j _ m hm
      have hj : j < messages.length := (List.getElem?_eq_some.mp hm).1
      exact h2 j hj m hm
    · intro h
      rw [show find_index_from_end messages ledger = findIdxAux messages ledger
        messages.length from rfl, h1] at h
      omega
  · have hfind : find_index_from_end messages ledger = (i : Int) := hfi
    refine ⟨?_, ?_, hprompt⟩
    · intro j hj m' hm'
      have hjlen : j < messages.length := (List.getElem?_eq_some.mp hm').1
      rw [hfind] at hj
      have : i < j := by exact_mod_cast hj
      exact hnone j this hjlen m' hm'
    · intro _
      rw [hfind]
      exact ⟨m, by simpa using hm, hmem⟩

/-- C1 witness: the amended theorem applied at ledger `["a"]` and request
`[user] a`, `[user] b`, where the delta is the non-empty `"[user] b"`. -/
theorem reconciler_selects_greatest_match_and_delta_witness :
    computeDelta [Message.mk "user" "a", Message.mk "user" "b"] ["a"] ≠ "" ∧
    ((∀ j : Nat, find_index_from_end [Message.mk "user" "a", Message.mk "user" "b"] ["a"]
        < (j : Int) →
      ∀ m, [Message.mk "user" "a", Message.mk "user" "b"][j]? = some m →
        pyStrip m.content ∉ ["a"]) ∧
    (0 ≤ find_index_from_end [Message.mk "user" "a", Message.mk "user" "b"] ["a"] →
      ∃ m, [Message.mk "user" "a", Message.mk "user" "b"][(find_index_from_end
          [Message.mk "user" "a", Message.mk "user" "b"] ["a"]).toNat]? = some m ∧
        pyStrip m.content ∈ ["a"]) ∧
    (chat_completions_step ["a"] [Message.mk "user" "a", Message.mk "user" "b"]
        "r").prompt =
      String.intercalate "\n\n"
        (([Message.mk "user" "a", Message.mk "user" "b"].drop
          ((find_index_from_end [Message.mk "user" "a", Message.mk "user" "b"] ["a"])
            + 1).toNat).map renderMessage)) :=
  ⟨by decide, reconciler_selects_greatest_match_and_delta _ _ "r" (by decide)⟩

/-! ## C2: the whole-history fallback -/

/-- C2: if no message of the request matches any ledger entry, or the computed
delta prompt is empty, the prompt actually submitted is the join of the
entire history, each message rendered `[role] content`, separated by blank
lines — a zero-length delta is never sent as-is. -/
theorem reconciler_fallback_full_history (messages : List Message)
    (ledger : List String) (response : String)
    (h : (∀ m ∈ messages, pyStrip m.content ∉ ledger) ∨
      computeDelta messages ledger = "") :
    (chat_completions_step ledger messages response).prompt = fullJoin messages := by
  show (if computeDelta messages ledger = "" then fullJoin messages
    else computeDelta messages ledger) = fullJoin messages
  rcases h with h | h
  · have hidx : find_index_from_end messages ledger = -1 := by
      rcases findIdxAux_spec messages ledger messages.length le_rfl with
        ⟨h1, _⟩ | ⟨i, m, hi, hfi, hm, hmem, _⟩
      · exact h1
      · exact absurd hmem (h m (List.getElem?_mem hm))
    have hdelta : computeDelta messages ledger = fullJoin messages := by
      rw [computeDelta, hidx]
      norm_num [fullJoin]
    rw [hdelta, ite_self]
  · rw [h, if_pos rfl]

/-- C2 witness: the theorem applied to the single-message request `[user] hi`
against an empty ledger (no match anywhere), where the submitted prompt is
the full history `"[user] hi"`. -/
theorem reconciler_fallback_full_history_witness :
    ((∀ m ∈ ([Message.mk "user" "hi"] : List Message),
        pyStrip m.content ∉ ([] : List String)) ∨
      computeDelta [Message.mk "user" "hi"] [] = "") ∧
    (chat_completions_step [] [Message.mk "user" "hi"] "ok").prompt
      = fullJoin [Message.mk "user" "hi"] :=
  ⟨Or.inl (by decide),
    reconciler_fallback_full_history _ _ _ (Or.inl (by decide))⟩

/-! ## C3: ledger ordering and growth -/

theorem chat_step_ledgerFinal_length (ledger : List String) (messages : List Message)
    (response : String) :
    (chat_completions_step ledger messages response).ledgerFinal.length
      = ledger.length + (if response = "" then 1 else 2) := by
  simp only [chat_completions_step]
  split <;> simp

theorem runCalls_length_mono (ledger : List String)
    (calls : List (List Message × String)) :
    ledger.length ≤ (runCalls ledger calls).length := by
  induction calls generalizing ledger with
  | nil => exact le_rfl
  | cons c cs ih =>
    have h1 : runCalls ledger (c :: cs)
        = runCalls (chat_completions_step ledger c.1 c.2).ledgerFinal cs := rfl
    rw [h1]
    refine le_trans ?_ (ih _)
    rw [chat_step_ledgerFinal_length]
    split <;> omega

theorem runCalls_length_growth (ledger : List String)
    (calls : List (List Message × String)) (h : ∀ c ∈ calls, c.2 ≠ "") :
    (runCalls ledger calls).length = ledger.length + 2 * calls.length := by
  induction calls generalizing ledger with
  | nil => simp [runCalls]
  | cons c cs ih =>
    have h1 : runCalls ledger (c :: cs)
        = runCalls (chat_completions_step ledger c.1 c.2).ledgerFinal cs := rfl
    rw [h1, ih _ (fun d hd => h d (List.mem_cons_of_mem c hd)),
      chat_step_ledgerFinal_length, if_neg (h c (List.mem_cons_self c cs))]
    simp only [List.length_cons]
    ring

/-- C3 counterexample: a failed interaction is not distinguished from a
successful one — `chat_with_deepseek` reports a send failure as the sentinel
string `"Error: Failed to send message"`, which `chat_completions` appends to
the ledger as if it were an assistant answer. -/
theorem failed_interaction_sentinel_appended :
    chat_with_deepseek false true "x" = "Error: Failed to send message" ∧
    (chat_completions_step [] [Message.mk "user" "hi"]
        (chat_with_deepseek false true "x")).ledgerFinal
      = ["hi", "Error: Failed to send message"] := by decide

/-- C3 (amended): on every call with a non-empty message list, the trimmed
content of the last request message is appended to the ledger after the
delta is computed and before the browser interaction; the interaction result
is appended exactly when it is a non-empty string (sentinel error strings
from failed interactions included); the ledger never shrinks; and across any
sequence of calls whose responses are all non-empty, the ledger grows by
exactly two entries (one user turn, one reply) per call. -/
theorem ledger_append_order_and_growth (ledger : List String)
    (messages : List Message) (response : String) (h : messages ≠ []) :
    (chat_completions_step ledger messages response).ledgerSent
        = ledger ++ [pyStrip (messages.getLast h).content] ∧
    (response ≠ "" → (chat_completions_step ledger messages response).ledgerFinal
        = (chat_completions_step ledger messages response).ledgerSent ++ [response]) ∧
    (response = "" → (chat_completions_step ledger messages response).ledgerFinal
        = (chat_completions_step ledger messages response).ledgerSent) ∧
    ledger.length ≤ (chat_completions_step ledger messages response).ledgerFinal.length ∧
    (∀ calls : List (List Message × String),
      ledger.length ≤ (runCalls ledger calls).length) ∧
    (∀ calls : List (List Message × String), (∀ c ∈ calls, c.2 ≠ "") →
      (runCalls ledger calls).length = ledger.length + 2 * calls.length) := by
  have hlast : messages.getLast! = messages.getLast h := by
    cases messages with
    | nil => exact absurd rfl h
    | cons a as => simp [List.getLast!]
  refine ⟨?_, ?_, ?_, ?_, runCalls_length_mono ledger, runCalls_length_growth ledger⟩
  · show ledger ++ [pyStrip messages.getLast!.content] = _
    rw [hlast]
  · intro hr
    show (if response = "" then _ else _) = _
    rw [if_neg hr]
    rfl
  · intro hr
    show (if response = "" then _ else _) = _
    rw [if_pos hr]
    rfl
  · rw [chat_step_ledgerFinal_length]
    split <;> omega

/-- C3 witness: the amended theorem applied to a call with request
`[user] hi` and the non-empty response `"ok"` on an empty ledger. -/
theorem ledger_append_order_and_growth_witness :
    ([Message.mk "user" "hi"] : List Message) ≠ [] ∧
    ((chat_completions_step [] [Message.mk "user" "hi"] "ok").ledgerSent
        = [] ++ [pyStrip (([Message.mk "user" "hi"] : List Message).getLast
            (by decide)).content] ∧
      ("ok" ≠ "" → (chat_completions_step [] [Message.mk "user" "hi"] "ok").ledgerFinal
        = (chat_completions_step [] [Message.mk "user" "hi"] "ok").ledgerSent
          ++ ["ok"]) ∧
      ("ok" = "" → (chat_completions_step [] [Message.mk "user" "hi"] "ok").ledgerFinal
        = (chat_completions_step [] [Message.mk "user" "hi"] "ok").ledgerSent) ∧
      ([] : List String).length
        ≤ (chat_completions_step [] [Message.mk "user" "hi"] "ok").ledgerFinal.length ∧
      (∀ calls : List (List Message × String),
        ([] : List String).length ≤ (runCalls [] calls).length) ∧
      (∀ calls : List (List Message × String), (∀ c ∈ calls, c.2 ≠ "") →
        (runCalls [] calls).length = ([] : List String).length + 2 * calls.length)) :=
  ⟨by decide, ledger_append_order_and_growth [] [Message.mk "user" "hi"] "ok" (by decide)⟩

/-! ## C6: which submit control is activated -/

/-- C6 counterexample: the OpenAI adapter's `send_message` locates its send
button with a single-element lookup (`wait_for_element_clickable`), which
yields the first matching element in document order — on a page with two
matching submit controls it activates the first, not the last. -/
theorem openai_send_activates_first_match :
    (openai_send_message (some ⟨0⟩) (Except.ok ()) [⟨1⟩, ⟨2⟩]
        (fun _ => Except.ok ())).2 = some ⟨1⟩ ∧
    ([(⟨1⟩ : Element), ⟨2⟩] : List Element).getLast? = some ⟨2⟩ ∧
    (⟨1⟩ : Element) ≠ ⟨2⟩ := by decide

/-- C6 (amended): for the adapters that locate the submit control with a
find-all query (Qwen, DeepSeek, DuckDuckGo — they share this `send_message`
shape), whenever the textarea interaction succeeds and two or more elements
match the submit selector, `Send` activates the last matching element in
document order; the OpenAI adapter instead uses a single-element lookup and
activates the first match. -/
theorem findall_send_activates_last_match (p : SendPage) (t : Element)
    (subs : List Element)
    (h1 : p.findTextarea = Except.ok (some t)) (h2 : p.clickTextarea = Except.ok ())
    (h3 : p.insertText = Except.ok ()) (h4 : p.findSubmits = Except.ok subs)
    (h5 : 2 ≤ subs.length) :
    send_message p = (true, subs.getLast?) ∧ subs.getLast?.isSome := by
  have hne : subs ≠ [] := by
    intro hs
    subst hs
    simp at h5
  obtain ⟨b, hb⟩ : ∃ b, subs.getLast? = some b := by
    cases hg : subs.getLast? with
    | none => exact absurd (List.getLast?_eq_none_iff.mp hg) hne
    | some b => exact ⟨b, rfl⟩
  obtain ⟨f1, f2, f3, f4, f5⟩ := p
  simp only [] at h1 h2 h3 h4
  subst h1
  subst h2
  subst h3
  subst h4
  constructor
  · rw [hb]
    simp only [send_message, send_message_run]
    rw [hb]
  · rw [hb]
    rfl

/-- C6 witness: the amended theorem applied to a page with two submit
controls, where the second one is activated. -/
theorem findall_send_activates_last_match_witness :
    twoSubmitPage.findTextarea = Except.ok (some ⟨0⟩) ∧
    twoSubmitPage.clickTextarea = Except.ok () ∧
    twoSubmitPage.insertText = Except.ok () ∧
    twoSubmitPage.findSubmits = Except.ok [⟨1⟩, ⟨2⟩] ∧
    2 ≤ ([(⟨1⟩ : Element), ⟨2⟩] : List Element).length ∧
    (send_message twoSubmitPage
        = (true, ([(⟨1⟩ : Element), ⟨2⟩] : List Element).getLast?) ∧
      ([(⟨1⟩ : Element), ⟨2⟩] : List Element).getLast?.isSome) :=
  ⟨rfl, rfl, rfl, rfl, by decide,
    findall_send_activates_last_match twoSubmitPage ⟨0⟩ [⟨1⟩, ⟨2⟩] rfl rfl rfl rfl
      (by decide)⟩

/-! ## C7: the failure behaviour of send_message -/

/-- C7 counterexample: a failure while activating the submit control is
swallowed inside `tools.click_element` (which catches the exception and
returns `False`, a value `send_message` ignores), so `send_message` still
returns `True` — the claim that an activation failure makes `Send` return
false does not hold. -/
theorem send_true_despite_click_failure :
    clickFailPage.submitClickOutcome ⟨1⟩ = Except.error () ∧
    send_message clickFailPage = (true, some ⟨1⟩) := ⟨rfl, rfl⟩

/-- C7 (amended): `send_message` returns false when the textarea lookup
yields no element or raises, or when the submit-control query yields no
element or any step before the final click raises (no exception escapes the
`try`); but when every step up to locating the submit control succeeds, it
returns true even if clicking that control fails, because `click_element`
swallows the failure. -/
theorem send_message_failure_paths (p : SendPage) :
    (p.findTextarea = Except.ok none → send_message p = (false, none)) ∧
    (p.findTextarea = Except.error () → send_message p = (false, none)) ∧
    (p.findSubmits = Except.ok [] → (send_message p).1 = false) ∧
    (∀ e, send_message_run p = Except.error e → send_message p = (false, none)) ∧
    (∀ t subs b, p.findTextarea = Except.ok (some t) →
      p.clickTextarea = Except.ok () → p.insertText = Except.ok () →
      p.findSubmits = Except.ok subs → subs.getLast? = some b →
      send_message p = (true, some b)) := by
  obtain ⟨f1, f2, f3, f4, f5⟩ := p
  refine ⟨?_, ?_, ?_, ?_, ?_⟩
  · intro h
    subst h
    rfl
  · intro h
    subst h
    rfl
  · intro h
    subst h
    cases f1 with
    | error e => cases e; rfl
    | ok ta =>
      cases ta with
      | none => rfl
      | some t =>
        cases f2 with
        | error e => cases e; rfl
        | ok u =>
          cases u
          cases f3 with
          | error e => cases e; rfl
          | ok u2 => cases u2; rfl
  · intro e h
    simp [send_message, h]
  · intro t subs b h1 h2 h3 h4 hb
    subst h1
    subst h2
    subst h3
    subst h4
    simp only [send_message, send_message_run]
    rw [hb]

/-- C7 witness: the amended theorem applied to a page with no textarea. -/
theorem send_message_failure_paths_witness :
    send_message missingTextareaPage = (false, none) :=
  (send_message_failure_paths missingTextareaPage).1 rfl

/-! ## C8: the clipboard retry loop -/

theorem copy_retry_loop_attempts (reads : Nat → String) :
    ∀ r k, (copy_retry_loop reads r k).2 ≤ k + r := by
  intro r
  induction r with
  | zero => intro k; simp [copy_retry_loop]
  | succ n ih =>
    intro k
    show (if reads k = "" then copy_retry_loop reads n (k + 1)
      else (reads k, k + 1)).2 ≤ k + (n + 1)
    split
    · exact le_trans (ih (k + 1)) (by omega)
    · simp

theorem copy_retry_loop_all_empty (reads : Nat → String) :
    ∀ r k, (∀ j, k ≤ j → j < k + r → reads j = "") →
      copy_retry_loop reads r k = ("", k + r) := by
  intro r
  induction r with
  | zero => intro k _; rfl
  | succ n ih =>
    intro k h
    have hk : reads k = "" := h k le_rfl (by omega)
    show (if reads k = "" then copy_retry_loop reads n (k + 1)
      else (reads k, k + 1)) = ("", k + (n + 1))
    rw [if_pos hk, ih (k + 1) (fun j hj hj2 => h j (by omega) (by omega))]
    congr 1
    omega

theorem copy_retry_loop_first_nonempty (reads : Nat → String) :
    ∀ r k k0, k ≤ k0 → k0 < k + r → reads k0 ≠ "" →
      (∀ j, k ≤ j → j < k0 → reads j = "") →
      copy_retry_loop reads r k = (reads k0, k0 + 1) := by
  intro r
  induction r with
  | zero => intro k k0 h1 h2 h3 h4; omega
  | succ n ih =>
    intro k k0 h1 h2 h3 h4
    show (if reads k = "" then copy_retry_loop reads n (k + 1)
      else (reads k, k + 1)) = (reads k0, k0 + 1)
    by_cases hk : reads k = ""
    · rw [if_pos hk]
      have hkk0 : k ≠ k0 := fun he => h3 (he ▸ hk)
      exact ih (k + 1) k0 (by omega) (by omega) h3 (fun j hj hj2 => h4 j (by omega) hj2)
    · rw [if_neg hk]
      have hk0 : k0 = k := by
        by_contra hne
        exact hk (h4 k le_rfl (by omega))
      rw [hk0]

/-- C8 counterexample: the clipboard-based extraction path does not return
the first non-empty clipboard text itself — it returns that text after CRLF
normalization and stripping.  With a clipboard that reads back `"hi "`, the
returned text is `"hi"`, not the clipboard content. -/
theorem copy_retry_returns_cleaned_not_raw :
    (get_last_response_duck padReads).1 = "hi" ∧ padReads 0 = "hi " ∧
    ("hi" : String) ≠ "hi " := by decide

/-- C8 (amended): the copy-answer read is attempted at most 5 times while
the result is empty, and the loop always terminates: if every attempt reads
back empty the function returns the empty string after exactly 5 attempts,
and if attempt `k0 < 5` is the first non-empty read, the function returns
that text after CRLF normalization and stripping (possibly empty again if
the clipboard held only whitespace), after `k0 + 1` attempts. -/
theorem copy_retry_bounded_and_first_nonempty (reads : Nat → String) :
    (get_last_response_duck reads).2 ≤ 5 ∧
    ((∀ k, k < 5 → reads k = "") → get_last_response_duck reads = ("", 5)) ∧
    (∀ k0, k0 < 5 → reads k0 ≠ "" → (∀ j, j < k0 → reads j = "") →
      get_last_response_duck reads
        = (duckduckgo_clean_chat_answer (reads k0), k0 + 1)) := by
  refine ⟨?_, ?_, ?_⟩
  · show (if (copy_retry_loop reads 5 0).1 = ""
      then (("", (copy_retry_loop reads 5 0).2) : String × Nat)
      else (duckduckgo_clean_chat_answer (copy_retry_loop reads 5 0).1,
        (copy_retry_loop reads 5 0).2)).2 ≤ 5
    have h := copy_retry_loop_attempts reads 5 0
    split
    · simpa using h
    · simpa using h
  · intro h
    have heq : copy_retry_loop reads 5 0 = ("", 0 + 5) :=
      copy_retry_loop_all_empty reads 5 0 (fun j hj hj2 => h j (by omega))
    show (if (copy_retry_loop reads 5 0).1 = ""
      then (("", (copy_retry_loop reads 5 0).2) : String × Nat)
      else (duckduckgo_clean_chat_answer (copy_retry_loop reads 5 0).1,
        (copy_retry_loop reads 5 0).2)) = ("", 5)
    rw [heq]
    rfl
  · intro k0 hk0 hne hprev
    have heq : copy_retry_loop reads 5 0 = (reads k0, k0 + 1) :=
      copy_retry_loop_first_nonempty reads 5 0 k0 (by omega) (by omega) hne
        (fun j hj hj2 => hprev j hj2)
    show (if (copy_retry_loop reads 5 0).1 = ""
      then (("", (copy_retry_loop reads 5 0).2) : String × Nat)
      else (duckduckgo_clean_chat_answer (copy_retry_loop reads 5 0).1,
        (copy_retry_loop reads 5 0).2)) = (duckduckgo_clean_chat_answer (reads k0), k0 + 1)
    rw [heq]
    simp only []
    rw [if_neg hne]

/-- C8 witness: the amended theorem applied to a clipboard that reads back
`"hello"` on the first attempt. -/
theorem copy_retry_bounded_and_first_nonempty_witness :
    (0 : Nat) < 5 ∧ helloReads 0 ≠ "" ∧
    get_last_response_duck helloReads
      = (duckduckgo_clean_chat_answer (helloReads 0), 0 + 1) :=
  ⟨by decide, by decide,
    (copy_retry_bounded_and_first_nonempty helloReads).2.2 0 (by decide) (by decide)
      (fun j hj => absurd hj (Nat.not_lt_zero j))⟩

/-! ## C9: content flattening -/

/-- C9: a structured content list is flattened by extracting exactly the
parts whose type is `"text"`, in their original order, joined with one blank
line (provided each text-typed part carries a `"text"` field, otherwise the
validator raises); a plain string passes through unchanged. -/
theorem transform_content_extracts_text_parts
    (items : List (List (String × String)))
    (h : ∀ it ∈ items, it.lookup "type" = some "text" → (it.lookup "text").isSome) :
    transform_content (RawContent.parts items)
      = Except.ok (String.intercalate "\n\n" (textPartsSpec items)) ∧
    ∀ s, transform_content (RawContent.str s) = Except.ok s := by
  constructor
  · have key : ∀ its : List (List (String × String)),
        (∀ it ∈ its, it.lookup "type" = some "text" → (it.lookup "text").isSome) →
        collectTexts its = Except.ok (textPartsSpec its) := by
      intro its
      induction its with
      | nil => intro _; rfl
      | cons it rest ih =>
        intro hh
        have hrest := ih (fun d hd => hh d (List.mem_cons_of_mem it hd))
        by_cases ht : it.lookup "type" = some "text"
        · obtain ⟨tx, htx⟩ := Option.isSome_iff_exists.mp
            (hh it (List.mem_cons_self it rest) ht)
          rw [collectTexts, if_pos ht, htx, hrest, textPartsSpec, if_pos ht, htx]
          rfl
        · rw [collectTexts, if_neg ht, textPartsSpec, if_neg ht]
          exact hrest
    show (collectTexts items).map (String.intercalate "\n\n")
      = Except.ok (String.intercalate "\n\n" (textPartsSpec items))
    rw [key items h]
    rfl
  · intro s
    rfl

/-- C9 witness: the theorem applied to two text parts around an image part,
flattening to the two texts in order joined by a blank line. -/
theorem transform_content_extracts_text_parts_witness :
    (∀ it ∈ partsExample, it.lookup "type" = some "text" →
      (it.lookup "text").isSome) ∧
    (transform_content (RawContent.parts partsExample)
        = Except.ok (String.intercalate "\n\n" (textPartsSpec partsExample)) ∧
      ∀ s, transform_content (RawContent.str s) = Except.ok s) :=
  ⟨by decide, transform_content_extracts_text_parts partsExample (by decide)⟩
